import Mathlib

/-!
# Verification of the self-healing element-resolution engine (`TestHealer`)

Shallow embedding of `src/utils/healer.ts`. The browser (Playwright `Page`)
is modelled as an oracle (`Page` below) answering the queries the healer
issues: attribute probing of the element found by the original locator, and
visibility checks of candidate locators. JavaScript `Map` objects (which
iterate in insertion order and update values in place) are modelled as
insertion-ordered association lists. JavaScript numbers are modelled as
rationals (exact arithmetic standing for IEEE doubles). Exceptions thrown by
provider calls are modelled by the boolean/optional results of the oracle,
matching the source's uniform `.catch` containment.
-/

namespace Healer

/-- `LocatorStrategy.type` in the source: the closed set of strategy kinds. -/
inductive StrategyType where
  | css
  | xpath
  | text
  | role
  | testId
  | label
  | placeholder
deriving DecidableEq, Repr

/-- `LocatorStrategy`: a candidate way to find an element
(`type`, `value`, `priority` fields of the source interface). -/
structure LocatorStrategy where
  type : StrategyType
  value : String
  priority : Nat
deriving DecidableEq, Repr

/-- `HealingResult`: outcome of one healing attempt. Optional fields of the
TypeScript interface (`healedLocator?`, `strategy?`) become `Option String`. -/
structure HealingResult where
  success : Bool
  originalLocator : String
  healedLocator : Option String
  strategy : Option String
  attempts : Nat
deriving DecidableEq, Repr

/-- Attributes of the element located by the original locator, as probed by
`generateAlternativeStrategies` (each `getAttribute`/`textContent` read
returns a value or `null`, modelled as `Option String`). -/
structure ElementAttrs where
  id : Option String
  className : Option String
  name : Option String
  testId : Option String
  ariaLabel : Option String
  placeholder : Option String
  text : Option String
  role : Option String
deriving DecidableEq, Repr

/-- A Playwright `Locator` value, tagged by the page query that built it:
`page.locator`, `page.getByTestId`, `page.getByText` (with its exactness
flag), `page.getByRole`, `page.getByLabel`, `page.getByPlaceholder`. -/
inductive Locator where
  | loc (selector : String)
  | byTestId (v : String)
  | byText (v : String) (exact : Bool)
  | byRole (v : String)
  | byLabel (v : String)
  | byPlaceholder (v : String)
deriving DecidableEq, Repr

/-- The browser oracle. `attrsOf loc` is `some a` when
`page.locator(loc).first()` is visible and its attribute probe yields `a`,
and `none` when the element is invisible, absent, or probing fails (the
source turns every such failure into "no strategies").
`isVisible l t` models `l.first().isVisible(timeout t)` (`false` on error),
and `waitForVisible s t` models whether
`page.locator(s).first().waitFor(timeout t, visible)` succeeds. -/
structure Page where
  attrsOf : String → Option ElementAttrs
  isVisible : Locator → Nat → Bool
  waitForVisible : String → Nat → Bool

/-- JavaScript string truthiness for an optional attribute value:
`null` and the empty string are falsy. -/
def jsTruthy : Option String → Option String
  | some s => if s = "" then none else some s
  | none => none

/-- ASCII whitespace, the fragment of the JavaScript `trim()` character
class relevant to locator text. -/
def jsIsSpace (c : Char) : Bool :=
  c = ' ' || c = '\t' || c = '\n' || c = '\r' || c = '\x0b' || c = '\x0c'

/-- JavaScript `String.prototype.trim()`: strip leading and trailing
whitespace. -/
def jsTrim (s : String) : String :=
  String.mk (((s.data.dropWhile jsIsSpace).reverse.dropWhile jsIsSpace).reverse)

/-- Worker for `jsSplitChar`: accumulates the current piece (reversed). -/
def jsSplitCharAux (sep : Char) : List Char → List Char → List String
  | [], acc => [String.mk acc.reverse]
  | c :: cs, acc =>
    if c = sep then String.mk acc.reverse :: jsSplitCharAux sep cs []
    else jsSplitCharAux sep cs (c :: acc)

/-- JavaScript `String.prototype.split(sep)` for a one-character separator:
cut at every occurrence, keeping empty pieces (`"a  b".split(' ')` is
`["a", "", "b"]`, `"".split(' ')` is `[""]`). -/
def jsSplitChar (sep : Char) (s : String) : List String :=
  jsSplitCharAux sep s.data []

/-- Insertion-ordered association-list read, modelling `Map.get` /
`Map.has`. -/
def mapGet {β : Type} (k : String) : List (String × β) → Option β
  | [] => none
  | p :: rest => if p.1 = k then some p.2 else mapGet k rest

/-- Insertion-ordered association-list write, modelling `Map.set`:
an existing key keeps its position and gets the new value; a new key is
appended. -/
def mapSet {β : Type} (k : String) (v : β) : List (String × β) → List (String × β)
  | [] => [(k, v)]
  | p :: rest => if p.1 = k then (k, v) :: rest else p :: mapSet k v rest

/-- One `if (attr) strategies.push(...)` statement of the source: a
singleton when the attribute is truthy, nothing otherwise. -/
def pushIf (o : Option String) (f : String → LocatorStrategy) : List LocatorStrategy :=
  match jsTruthy o with
  | some v => [f v]
  | none => []

/-- The source's text push: requires truthy text with truthy trim, and
pushes the trimmed text at priority 7. -/
def textPush (o : Option String) : List LocatorStrategy :=
  match jsTruthy o with
  | some t => if jsTrim t = "" then [] else [⟨StrategyType.text, jsTrim t, 7⟩]
  | none => []

/-- The source's class push: split a truthy class attribute on spaces, drop
empty pieces, and push the dot-joined selector at priority 8 when at least
one class remains. -/
def classPush (o : Option String) : List LocatorStrategy :=
  match jsTruthy o with
  | some c =>
    let classes := (jsSplitChar ' ' c).filter (fun s => s ≠ "")
    if classes.isEmpty then []
    else [⟨StrategyType.css, "." ++ String.intercalate "." classes, 8⟩]
  | none => []

/-- The strategies pushed by `generateAlternativeStrategies` for a visible
element with attributes `a`, in source push order (priorities 1..8). -/
def buildStrategies (a : ElementAttrs) : List LocatorStrategy :=
  pushIf a.testId (fun v => ⟨StrategyType.testId, v, 1⟩) ++
  pushIf a.id (fun v => ⟨StrategyType.css, "#" ++ v, 2⟩) ++
  pushIf a.name (fun v => ⟨StrategyType.css, "[name=\"" ++ v ++ "\"]", 3⟩) ++
  pushIf a.ariaLabel (fun v => ⟨StrategyType.label, v, 4⟩) ++
  pushIf a.placeholder (fun v => ⟨StrategyType.placeholder, v, 5⟩) ++
  pushIf a.role (fun v => ⟨StrategyType.role, v, 6⟩) ++
  textPush a.text ++
  classPush a.className

/-- Stable insertion of a strategy into a priority-sorted list (helper for
the final ascending sort `strategies.sort(a.priority - b.priority)`). -/
def insertByPriority (s : LocatorStrategy) : List LocatorStrategy → List LocatorStrategy
  | [] => [s]
  | t :: ts => if s.priority ≤ t.priority then s :: t :: ts else t :: insertByPriority s ts

/-- Stable sort ascending by `priority`, modelling the source's
`.sort((a, b) => a.priority - b.priority)`. -/
def sortByPriority : List LocatorStrategy → List LocatorStrategy
  | [] => []
  | s :: ss => insertByPriority s (sortByPriority ss)

/-- `generateAlternativeStrategies(page, originalLocator)`: if the element
found by the original locator is visible, build one strategy per truthy
attribute and sort ascending by priority; otherwise (element invisible,
absent, or probing throws) return the empty list. -/
def generateAlternativeStrategies (page : Page) (originalLocator : String) :
    List LocatorStrategy :=
  match page.attrsOf originalLocator with
  | none => []
  | some a => sortByPriority (buildStrategies a)

/-- The mutable fields of the `TestHealer` class: `healingHistory` (the
Ledger) and `locatorCache` (the Cache), both JavaScript `Map`s keyed by the
original locator string. -/
structure HealerState where
  healingHistory : List (String × HealingResult)
  locatorCache : List (String × String)
deriving DecidableEq, Repr

/-- The freshly-constructed `TestHealer`: both maps empty. -/
def initialState : HealerState :=
  ⟨[], []⟩

/-- The string stored in `HealingResult.strategy` for a winning strategy:
the source writes `strategy.type`, the literal union tag. -/
def strategyName : StrategyType → String
  | StrategyType.css => "css"
  | StrategyType.xpath => "xpath"
  | StrategyType.text => "text"
  | StrategyType.role => "role"
  | StrategyType.testId => "testId"
  | StrategyType.label => "label"
  | StrategyType.placeholder => "placeholder"

/-- The provider query `healLocator` constructs from a strategy in its
`switch (strategy.type)`: kind-specific `getBy...` queries for testId /
text / role / label / placeholder (text with `exact: false`), and the
generic `page.locator` for css and xpath. -/
def locatorFor (s : LocatorStrategy) : Locator :=
  match s.type with
  | StrategyType.testId => Locator.byTestId s.value
  | StrategyType.text => Locator.byText s.value false
  | StrategyType.role => Locator.byRole s.value
  | StrategyType.label => Locator.byLabel s.value
  | StrategyType.placeholder => Locator.byPlaceholder s.value
  | StrategyType.css => Locator.loc s.value
  | StrategyType.xpath => Locator.loc s.value

/-- One trial of the loop body: build the query and check visibility with a
2000 ms bound; every error is caught and treated as "not visible". -/
def strategyVisible (page : Page) (s : LocatorStrategy) : Bool :=
  page.isVisible (locatorFor s) 2000

/-- The `for (const strategy of strategies)` loop of `healLocator`,
carrying the running `attempts` counter. On the first visible strategy it
caches `originalLocator → strategy.value`, records the successful result in
the Ledger and returns it; on exhaustion it records and returns a failed
result with the final counter. -/
def trialLoop (page : Page) (st : HealerState) (orig : String) :
    List LocatorStrategy → Nat → HealingResult × HealerState
  | [], attempts =>
    let r : HealingResult :=
      { success := false, originalLocator := orig, healedLocator := none,
        strategy := none, attempts := attempts }
    (r, { st with healingHistory := mapSet orig r st.healingHistory })
  | s :: rest, attempts =>
    if strategyVisible page s then
      let healedLocator := s.value
      let r : HealingResult :=
        { success := true, originalLocator := orig,
          healedLocator := some healedLocator,
          strategy := some (strategyName s.type), attempts := attempts + 1 }
      (r, { healingHistory := mapSet orig r st.healingHistory,
            locatorCache := mapSet orig healedLocator st.locatorCache })
    else
      trialLoop page st orig rest (attempts + 1)

/-- `healLocator(page, originalLocator)`: cache-check first (a hit returns
`strategy = "cached"`, `attempts = 0` and touches no state), otherwise
synthesize strategies and run the trial loop. Returns the `HealingResult`
together with the updated healer state. -/
def healLocator (page : Page) (st : HealerState) (originalLocator : String) :
    HealingResult × HealerState :=
  match mapGet originalLocator st.locatorCache with
  | some cachedLocator =>
    ({ success := true, originalLocator := originalLocator,
       healedLocator := some cachedLocator, strategy := some "cached",
       attempts := 0 }, st)
  | none =>
    trialLoop page st originalLocator
      (generateAlternativeStrategies page originalLocator) 0

/-- The options object of `findElement` (optional fields of an optional
argument; an absent object is all-`none`). -/
structure FindOptions where
  timeout : Option Nat
  enableHealing : Option Bool
deriving DecidableEq, Repr

/-- `options?.timeout || 5000`: JavaScript `||` also replaces an explicit
value of `0` (falsy) by the default. -/
def effTimeout (o : FindOptions) : Nat :=
  match o.timeout with
  | some t => if t = 0 then 5000 else t
  | none => 5000

/-- `options?.enableHealing !== false`: healing is on unless the caller
passes literal `false`. -/
def effEnableHealing (o : FindOptions) : Bool :=
  decide (o.enableHealing ≠ some false)

/-- The error `findElement` can raise: either the original resolution
failure propagated from `waitFor` (when healing is disabled), or the
distinct `Could not heal locator` error. -/
inductive FindError where
  | resolutionError (locator : String)
  | couldNotHeal (locator : String)
deriving DecidableEq, Repr

/-- `findElement(page, locator, options)`: try the original locator with a
visibility wait bounded by the effective timeout; on failure, rethrow when
healing is disabled, else heal and — when the healing result is successful
and its healed locator truthy — return `page.locator(healedLocator)`;
otherwise throw the distinct could-not-heal error. -/
def findElement (page : Page) (st : HealerState) (locator : String)
    (opts : FindOptions) : Except FindError Locator × HealerState :=
  if page.waitForVisible locator (effTimeout opts) then
    (Except.ok (Locator.loc locator), st)
  else if !effEnableHealing opts then
    (Except.error (FindError.resolutionError locator), st)
  else
    let res := healLocator page st locator
    match res.1.healedLocator with
    | some h =>
      if res.1.success && decide (h ≠ "") then
        (Except.ok (Locator.loc h), res.2)
      else
        (Except.error (FindError.couldNotHeal locator), res.2)
    | none => (Except.error (FindError.couldNotHeal locator), res.2)

/-- The record returned by `getHealingStats()`. `successRate` is a JS
number, modelled as a rational. -/
structure HealingStats where
  totalAttempts : Nat
  successful : Nat
  failed : Nat
  successRate : ℚ
  cachedLocators : Nat
deriving DecidableEq, Repr

/-- `parseFloat(x.toFixed(2))` for a non-negative number: round to the
nearest hundredth, ties upward (the larger candidate). -/
def roundTo2 (q : ℚ) : ℚ :=
  ((⌊q * 100 + 1 / 2⌋ : ℤ) : ℚ) / 100

/-- `getHealingStats()`: Ledger size, success/failure counts, success rate
as a percentage rounded to two decimals (`0` when the Ledger is empty), and
Cache size. -/
def getHealingStats (st : HealerState) : HealingStats :=
  let total := st.healingHistory.length
  let successful := (st.healingHistory.filter (fun p => p.2.success)).length
  let failed := total - successful
  let successRate : ℚ :=
    if total > 0 then ((successful : ℚ) / (total : ℚ)) * 100 else 0
  { totalAttempts := total, successful := successful, failed := failed,
    successRate := roundTo2 successRate, cachedLocators := st.locatorCache.length }

/-- One element of the array returned by `exportHealedLocators()`. -/
structure ExportEntry where
  original : String
  healed : String
  strategy : String
deriving DecidableEq, Repr

/-- `exportHealedLocators()`: walk the Ledger in insertion order and emit a
triple for every entry passing `result.success && result.healedLocator &&
result.strategy` (the optional fields tested by JS truthiness). -/
def exportHealedLocators (st : HealerState) : List ExportEntry :=
  st.healingHistory.filterMap (fun p =>
    match p.2.healedLocator, p.2.strategy with
    | some h, some s =>
      if p.2.success && decide (h ≠ "") && decide (s ≠ "") then
        some ⟨p.1, h, s⟩
      else none
    | _, _ => none)

/-- `clearCache()`: empties the Cache only; the Ledger is untouched. -/
def clearCache (st : HealerState) : HealerState :=
  { st with locatorCache := [] }

/-- One row of the spec's synthesis table: a singleton when the row's
presence condition holds. -/
def rowIf (present : Prop) [Decidable present] (s : LocatorStrategy) :
    List LocatorStrategy :=
  if present then [s] else []

/-- The spec's synthesis table (§4.1), written from the spec's words: one
strategy per present-and-non-empty attribute, with the table's value
construction and priority, rows in priority order. This is the
specification-side definition, compared against the source-side
`buildStrategies` in the refinement theorem for strategy synthesis. -/
def specStrategies (a : ElementAttrs) : List LocatorStrategy :=
  rowIf (a.testId.getD "" ≠ "") ⟨StrategyType.testId, a.testId.getD "", 1⟩ ++
  rowIf (a.id.getD "" ≠ "") ⟨StrategyType.css, "#" ++ a.id.getD "", 2⟩ ++
  rowIf (a.name.getD "" ≠ "")
    ⟨StrategyType.css, "[name=\"" ++ a.name.getD "" ++ "\"]", 3⟩ ++
  rowIf (a.ariaLabel.getD "" ≠ "") ⟨StrategyType.label, a.ariaLabel.getD "", 4⟩ ++
  rowIf (a.placeholder.getD "" ≠ "")
    ⟨StrategyType.placeholder, a.placeholder.getD "", 5⟩ ++
  rowIf (a.role.getD "" ≠ "") ⟨StrategyType.role, a.role.getD "", 6⟩ ++
  rowIf (jsTrim (a.text.getD "") ≠ "")
    ⟨StrategyType.text, jsTrim (a.text.getD ""), 7⟩ ++
  rowIf ((jsSplitChar ' ' (a.className.getD "")).filter (fun s => s ≠ "") ≠ [])
    ⟨StrategyType.css,
      "." ++ String.intercalate "."
        ((jsSplitChar ' ' (a.className.getD "")).filter (fun s => s ≠ "")), 8⟩

/-! ## Concrete scenarios used by witnesses and counterexamples -/

/-- An element exposing only an `id` attribute. -/
def attrsId : ElementAttrs := ⟨some "real", none, none, none, none, none, none, none⟩

/-- A page on which the locator `a` finds an element with id `real`, the
selector `#real` is visible within any timeout, and no direct `waitFor`
ever succeeds. -/
def pageA : Page :=
  ⟨fun loc => if loc = "a" then some attrsId else none,
   fun l _ => decide (l = Locator.loc "#real"),
   fun _ _ => false⟩

/-- The healer state after one successful healing of `a` on `pageA`. -/
def stA1 : HealerState := (healLocator pageA initialState "a").2

/-- An element exposing an `id` and a `name` attribute. -/
def attrsIdName : ElementAttrs :=
  ⟨some "x", none, some "n", none, none, none, none, none⟩

/-- A page on which the locator `b` finds an element with id and name but
no synthesized strategy is ever visible. -/
def pageB : Page :=
  ⟨fun loc => if loc = "b" then some attrsIdName else none,
   fun _ _ => false,
   fun _ _ => false⟩

/-- An element exposing only a `data-testid` attribute. -/
def attrsTid : ElementAttrs :=
  ⟨none, none, none, some "submit", none, none, none, none⟩

/-- A page on which the locator `old` finds an element with test-id
`submit`, only the `getByTestId` query for `submit` is visible (the plain
selector `submit` is not), and no direct `waitFor` ever succeeds. -/
def pageT : Page :=
  ⟨fun loc => if loc = "old" then some attrsTid else none,
   fun l _ => decide (l = Locator.byTestId "submit"),
   fun _ _ => false⟩

/-- An element exposing test-id, id, and class attributes (the spec's
strategy-ordering example). -/
def attrsTic : ElementAttrs :=
  ⟨some "theid", some "c1 c2", none, some "tid", none, none, none, none⟩

/-- A page on which the locator `c` finds the test-id/id/class element. -/
def pageC : Page :=
  ⟨fun loc => if loc = "c" then some attrsTic else none,
   fun _ _ => false,
   fun _ _ => false⟩

/-- Empty `findElement` options (all defaults). -/
def optsDefault : FindOptions := ⟨none, none⟩

/-- `findElement` options with healing explicitly disabled. -/
def optsNoHeal : FindOptions := ⟨none, some false⟩

/-- A successful ledger entry used in statistics/export scenarios. -/
def resOk : HealingResult := ⟨true, "p", some "#p", some "css", 1⟩

/-- A failed ledger entry used in statistics/export scenarios. -/
def resFail : HealingResult := ⟨false, "q", none, none, 3⟩

/-- A second successful ledger entry (testId strategy). -/
def resOk2 : HealingResult := ⟨true, "r", some "tid", some "testId", 2⟩

/-- A healer state with two successes and one failure in the Ledger and one
Cache entry. -/
def stStats : HealerState :=
  ⟨[("p", resOk), ("q", resFail), ("r", resOk2)], [("p", "#p")]⟩

/-- JavaScript truthiness of an optional string field, as a Boolean. -/
def jsTruthyB (o : Option String) : Bool :=
  (jsTruthy o).isSome

/-! ## Lemmas -/

theorem jsTruthy_eq_some (o : Option String) (v : String) (h : jsTruthy o = some v) :
    o = some v ∧ v ≠ "" := by
  cases o with
  | none => simp [jsTruthy] at h
  | some w =>
    by_cases hw : w = ""
    · simp [jsTruthy, hw] at h
    · simp only [jsTruthy, if_neg hw, Option.some.injEq] at h
      subst h
      exact ⟨rfl, hw⟩

theorem mem_insertByPriority (s t : LocatorStrategy) (l : List LocatorStrategy) :
    t ∈ insertByPriority s l ↔ t = s ∨ t ∈ l := by
  induction l with
  | nil => simp [insertByPriority]
  | cons u us ih =>
    simp only [insertByPriority]
    split
    · simp only [List.mem_cons]
    · simp only [List.mem_cons, ih]
      tauto

theorem mem_sortByPriority (t : LocatorStrategy) (l : List LocatorStrategy) :
    t ∈ sortByPriority l ↔ t ∈ l := by
  induction l with
  | nil => simp [sortByPriority]
  | cons u us ih =>
    simp only [sortByPriority, mem_insertByPriority, List.mem_cons, ih]

theorem sortByPriority_eq_of_pairwise (l : List LocatorStrategy)
    (h : l.Pairwise (fun x y => x.priority ≤ y.priority)) :
    sortByPriority l = l := by
  induction l with
  | nil => rfl
  | cons u us ih =>
    simp only [sortByPriority]
    rw [ih (List.Pairwise.of_cons h)]
    cases us with
    | nil => rfl
    | cons v vs =>
      have huv : u.priority ≤ v.priority :=
        (List.pairwise_cons.mp h).1 v (List.mem_cons_self v vs)
      simp [insertByPriority, huv]

theorem pushIf_map_priority (o : Option String) (f : String → LocatorStrategy)
    (p : Nat) (h : ∀ v, (f v).priority = p) :
    ((pushIf o f).map (fun s => s.priority)).Sublist [p] := by
  unfold pushIf
  cases jsTruthy o with
  | none => simp
  | some v => simp [h v]

theorem textPush_map_priority (o : Option String) :
    ((textPush o).map (fun s => s.priority)).Sublist [7] := by
  unfold textPush
  cases h : jsTruthy o with
  | none => simp
  | some t => by_cases ht : jsTrim t = "" <;> simp [ht]

theorem classPush_map_priority (o : Option String) :
    ((classPush o).map (fun s => s.priority)).Sublist [8] := by
  unfold classPush
  cases h : jsTruthy o with
  | none => simp
  | some c =>
    dsimp only
    split <;> simp

theorem buildStrategies_pairwise (a : ElementAttrs) :
    (buildStrategies a).Pairwise (fun x y => x.priority ≤ y.priority) := by
  have h1 := pushIf_map_priority a.testId
    (fun v => ⟨StrategyType.testId, v, 1⟩) 1 (fun v => rfl)
  have h2 := pushIf_map_priority a.id
    (fun v => ⟨StrategyType.css, "#" ++ v, 2⟩) 2 (fun v => rfl)
  have h3 := pushIf_map_priority a.name
    (fun v => ⟨StrategyType.css, "[name=\"" ++ v ++ "\"]", 3⟩) 3 (fun v => rfl)
  have h4 := pushIf_map_priority a.ariaLabel
    (fun v => ⟨StrategyType.label, v, 4⟩) 4 (fun v => rfl)
  have h5 := pushIf_map_priority a.placeholder
    (fun v => ⟨StrategyType.placeholder, v, 5⟩) 5 (fun v => rfl)
  have h6 := pushIf_map_priority a.role
    (fun v => ⟨StrategyType.role, v, 6⟩) 6 (fun v => rfl)
  have h7 := textPush_map_priority a.text
  have h8 := classPush_map_priority a.className
  have hsub : ((buildStrategies a).map (fun s => s.priority)).Sublist
      ([1] ++ [2] ++ [3] ++ [4] ++ [5] ++ [6] ++ [7] ++ [8]) := by
    unfold buildStrategies
    simp only [List.map_append]
    exact ((((((h1.append h2).append h3).append h4).append h5).append h6).append
      h7).append h8
  have hp : (([1] ++ [2] ++ [3] ++ [4] ++ [5] ++ [6] ++ [7] ++ [8]) :
      List Nat).Pairwise (fun x y => x ≤ y) := by decide
  have hmap := hp.sublist hsub
  rwa [List.pairwise_map] at hmap

theorem jsTrim_empty : jsTrim "" = "" := by decide

theorem rowIf_getD (o : Option String) (f : String → LocatorStrategy) :
    rowIf (o.getD "" ≠ "") (f (o.getD "")) = pushIf o f := by
  cases o with
  | none => simp [rowIf, pushIf, jsTruthy]
  | some v => by_cases hv : v = "" <;> simp [rowIf, pushIf, jsTruthy, hv]

theorem rowIf_text (o : Option String) :
    rowIf (jsTrim (o.getD "") ≠ "") ⟨StrategyType.text, jsTrim (o.getD ""), 7⟩ =
      textPush o := by
  cases o with
  | none => simp [rowIf, textPush, jsTruthy, jsTrim_empty]
  | some t =>
    by_cases ht : t = ""
    · simp [rowIf, textPush, jsTruthy, ht, jsTrim_empty]
    · simp only [textPush, jsTruthy, if_neg ht, Option.getD_some]
      by_cases htr : jsTrim t = "" <;> simp [rowIf, htr]

theorem jsSplitChar_empty_filter :
    (jsSplitChar ' ' "").filter (fun s => s ≠ "") = [] := by decide

theorem classPush_none : classPush none = [] := rfl

theorem classPush_empty : classPush (some "") = [] := by decide

theorem rowIf_class (o : Option String) :
    rowIf ((jsSplitChar ' ' (o.getD "")).filter (fun s => s ≠ "") ≠ [])
      ⟨StrategyType.css,
        "." ++ String.intercalate "."
          ((jsSplitChar ' ' (o.getD "")).filter (fun s => s ≠ "")), 8⟩ =
      classPush o := by
  cases o with
  | none =>
    rw [classPush_none, Option.getD_none, jsSplitChar_empty_filter, rowIf,
      if_neg (by simp)]
  | some c =>
    by_cases hc : c = ""
    · subst hc
      rw [classPush_empty, Option.getD_some, jsSplitChar_empty_filter, rowIf,
        if_neg (by simp)]
    · have hrhs : classPush (some c) =
          (if ((jsSplitChar ' ' c).filter (fun s => s ≠ "")).isEmpty then []
           else [⟨StrategyType.css,
             "." ++ String.intercalate "."
               ((jsSplitChar ' ' c).filter (fun s => s ≠ "")), 8⟩]) := by
        simp only [classPush, jsTruthy, if_neg hc]
      rw [hrhs, Option.getD_some]
      by_cases he : (jsSplitChar ' ' c).filter (fun s => s ≠ "") = []
      · rw [rowIf, if_neg (not_not_intro he), he]
        rfl
      · rw [rowIf, if_pos he,
          if_neg (fun h => he (List.isEmpty_iff.mp h))]

theorem specStrategies_eq (a : ElementAttrs) :
    specStrategies a = buildStrategies a := by
  unfold specStrategies buildStrategies
  rw [rowIf_getD a.testId (fun v => ⟨StrategyType.testId, v, 1⟩),
    rowIf_getD a.id (fun v => ⟨StrategyType.css, "#" ++ v, 2⟩),
    rowIf_getD a.name (fun v => ⟨StrategyType.css, "[name=\"" ++ v ++ "\"]", 3⟩),
    rowIf_getD a.ariaLabel (fun v => ⟨StrategyType.label, v, 4⟩),
    rowIf_getD a.placeholder (fun v => ⟨StrategyType.placeholder, v, 5⟩),
    rowIf_getD a.role (fun v => ⟨StrategyType.role, v, 6⟩),
    rowIf_text a.text, rowIf_class a.className]

theorem append_ne_empty_left (a b : String) (ha : a ≠ "") : a ++ b ≠ "" := by
  intro h
  apply ha
  have hd : a.data ++ b.data = [] := by
    have := congrArg String.data h
    simpa [String.data_append] using this
  have ha0 : a.data = [] := (List.append_eq_nil.mp hd).1
  cases a
  simp_all [String.ext_iff]

theorem pushIf_value_ne (o : Option String) (f : String → LocatorStrategy)
    (hf : ∀ v, v ≠ "" → (f v).value ≠ "") :
    ∀ s ∈ pushIf o f, s.value ≠ "" := by
  unfold pushIf
  cases ho : jsTruthy o with
  | none => simp
  | some v =>
    intro s hs
    rw [List.mem_singleton.mp hs]
    exact hf v (jsTruthy_eq_some o v ho).2

theorem textPush_value_ne (o : Option String) :
    ∀ s ∈ textPush o, s.value ≠ "" := by
  unfold textPush
  cases ho : jsTruthy o with
  | none => simp
  | some t =>
    by_cases ht : jsTrim t = "" <;> simp [ht]

theorem classPush_value_ne (o : Option String) :
    ∀ s ∈ classPush o, s.value ≠ "" := by
  unfold classPush
  cases ho : jsTruthy o with
  | none => simp
  | some c =>
    dsimp only
    split
    · simp
    · intro s hs
      rw [List.mem_singleton.mp hs]
      exact append_ne_empty_left "." _ (by decide)

theorem buildStrategies_value_ne (a : ElementAttrs) :
    ∀ s ∈ buildStrategies a, s.value ≠ "" := by
  intro s hs
  simp only [buildStrategies, List.mem_append] at hs
  rcases hs with ((((((hs | hs) | hs) | hs) | hs) | hs) | hs) | hs
  · exact pushIf_value_ne _ _ (fun v hv => hv) s hs
  · exact pushIf_value_ne _ _
      (fun v hv => append_ne_empty_left "#" v (by decide)) s hs
  · exact pushIf_value_ne _ _
      (fun v hv => append_ne_empty_left "[name=\"" _ (by decide)) s hs
  · exact pushIf_value_ne _ _ (fun v hv => hv) s hs
  · exact pushIf_value_ne _ _ (fun v hv => hv) s hs
  · exact pushIf_value_ne _ _ (fun v hv => hv) s hs
  · exact textPush_value_ne _ s hs
  · exact classPush_value_ne _ s hs

theorem generate_value_ne (page : Page) (orig : String) :
    ∀ s ∈ generateAlternativeStrategies page orig, s.value ≠ "" := by
  unfold generateAlternativeStrategies
  cases page.attrsOf orig with
  | none => simp
  | some a =>
    intro s hs
    exact buildStrategies_value_ne a s ((mem_sortByPriority s _).mp hs)

theorem mem_mapSet {β : Type} (k : String) (v : β) (p : String × β)
    (l : List (String × β)) (hp : p ∈ mapSet k v l) : p = (k, v) ∨ p ∈ l := by
  induction l with
  | nil => simpa [mapSet] using hp
  | cons q rest ih =>
    simp only [mapSet] at hp
    split at hp
    · rcases List.mem_cons.mp hp with h | h
      · exact Or.inl h
      · exact Or.inr (List.mem_cons_of_mem q h)
    · rcases List.mem_cons.mp hp with h | h
      · exact Or.inr (h ▸ List.mem_cons_self q rest)
      · rcases ih h with h' | h'
        · exact Or.inl h'
        · exact Or.inr (List.mem_cons_of_mem q h')

theorem mapGet_mem {β : Type} (k : String) (v : β) (l : List (String × β))
    (h : mapGet k l = some v) : (k, v) ∈ l := by
  induction l with
  | nil => simp [mapGet] at h
  | cons q rest ih =>
    simp only [mapGet] at h
    split at h
    · next hq =>
      have hv : q.2 = v := Option.some.inj h
      have : (k, v) = q := by
        rcases q with ⟨q1, q2⟩
        simp only at hq hv
        rw [hq, hv]
      exact this ▸ List.mem_cons_self q rest
    · exact List.mem_cons_of_mem q (ih h)

theorem trialLoop_exhaust (page : Page) (orig : String) (l : List LocatorStrategy) :
    ∀ (st : HealerState) (n : Nat),
      (∀ s ∈ l, strategyVisible page s = false) →
      trialLoop page st orig l n =
        (⟨false, orig, none, none, n + l.length⟩,
         { st with healingHistory :=
             mapSet orig ⟨false, orig, none, none, n + l.length⟩ st.healingHistory }) := by
  induction l with
  | nil => intro st n hv; simp [trialLoop]
  | cons s rest ih =>
    intro st n hv
    have hs : strategyVisible page s = false := hv s (List.mem_cons_self s rest)
    have harith : n + 1 + rest.length = n + (rest.length + 1) := by omega
    simp only [trialLoop, hs, Bool.false_eq_true, if_false, List.length_cons]
    rw [ih st (n + 1) (fun t ht => hv t (List.mem_cons_of_mem s ht)), harith]

theorem trialLoop_history (page : Page) (orig : String) (l : List LocatorStrategy) :
    ∀ (st : HealerState) (n : Nat),
      (trialLoop page st orig l n).2.healingHistory =
        mapSet orig (trialLoop page st orig l n).1 st.healingHistory := by
  induction l with
  | nil => intro st n; simp [trialLoop]
  | cons s rest ih =>
    intro st n
    simp only [trialLoop]
    split
    · rfl
    · exact ih st (n + 1)

theorem trialLoop_wf (page : Page) (orig : String) (l : List LocatorStrategy) :
    ∀ (st : HealerState) (n : Nat),
      (∀ s ∈ l, s.value ≠ "") → (∀ p ∈ st.locatorCache, p.2 ≠ "") →
      ((trialLoop page st orig l n).1.success = true →
        ∃ h, (trialLoop page st orig l n).1.healedLocator = some h ∧ h ≠ "") ∧
      (∀ p ∈ (trialLoop page st orig l n).2.locatorCache, p.2 ≠ "") := by
  induction l with
  | nil =>
    intro st n _ hc
    refine ⟨fun h => ?_, by simpa [trialLoop] using hc⟩
    simp [trialLoop] at h
  | cons s rest ih =>
    intro st n hv hc
    simp only [trialLoop]
    split
    · refine ⟨fun _ => ⟨s.value, rfl, hv s (List.mem_cons_self s rest)⟩, ?_⟩
      intro p hp
      rcases mem_mapSet orig s.value p st.locatorCache hp with h | h
      · rw [h]; exact hv s (List.mem_cons_self s rest)
      · exact hc p h
    · exact ih st (n + 1) (fun t ht => hv t (List.mem_cons_of_mem s ht)) hc

theorem healLocator_wf (page : Page) (st : HealerState) (orig : String)
    (hc : ∀ p ∈ st.locatorCache, p.2 ≠ "") :
    ((healLocator page st orig).1.success = true →
      ∃ h, (healLocator page st orig).1.healedLocator = some h ∧ h ≠ "") ∧
    (∀ p ∈ (healLocator page st orig).2.locatorCache, p.2 ≠ "") := by
  unfold healLocator
  cases hm : mapGet orig st.locatorCache with
  | some v =>
    exact ⟨fun _ => ⟨v, rfl, hc (orig, v) (mapGet_mem orig v st.locatorCache hm)⟩, hc⟩
  | none =>
    exact trialLoop_wf page orig (generateAlternativeStrategies page orig) st 0
      (generate_value_ne page orig) hc

theorem roundTo2_zero : roundTo2 0 = 0 := by
  unfold roundTo2
  rw [show ((0 : ℚ) * 100 + 1 / 2) = 1 / 2 by ring]
  rw [show (⌊(1 / 2 : ℚ)⌋ : ℤ) = 0 from Int.floor_eq_zero_iff.mpr (by norm_num)]
  norm_num

/-! ## Claim theorems -/

/-- C1 (counterexample): the claim "after every `healLocator` call,
including calls served from the Cache, the Ledger holds the returned
`HealingResult` under the original locator" is false: after a first
successful healing of `a` on `pageA`, a second call is served from the
Cache and returns `strategy = "cached"`, `attempts = 0`, while the Ledger
still holds the first call's result (`strategy = "css"`, `attempts = 1`). -/
theorem healLocator_cached_ledger_counterexample :
    mapGet "a" (healLocator pageA stA1 "a").2.healingHistory ≠
      some (healLocator pageA stA1 "a").1 := by decide

/-- C1 (amended): every `healLocator` call that is not served from the
Cache overwrites the Ledger entry for the original locator with exactly the
`HealingResult` it returns; a call served from the Cache returns without
modifying the Ledger (or any other healer state). -/
theorem healLocator_ledger_update (page : Page) (st : HealerState) (orig : String) :
    (mapGet orig st.locatorCache = none →
      (healLocator page st orig).2.healingHistory =
        mapSet orig (healLocator page st orig).1 st.healingHistory) ∧
    (∀ v, mapGet orig st.locatorCache = some v → (healLocator page st orig).2 = st) := by
  constructor
  · intro h
    unfold healLocator
    rw [h]
    exact trialLoop_history page orig (generateAlternativeStrategies page orig) st 0
  · intro v h
    unfold healLocator
    rw [h]

/-- C1 (witness): the amended theorem applied to the first, fresh healing
call of the counterexample scenario. -/
theorem healLocator_ledger_update_witness :
    (healLocator pageA initialState "a").2.healingHistory =
      mapSet "a" (healLocator pageA initialState "a").1 initialState.healingHistory :=
  (healLocator_ledger_update pageA initialState "a").1 (by decide)

/-- C3: a `healLocator` call whose original locator has a Cache entry
returns immediately with `success = true`, the cached value as
`healedLocator`, `strategy = "cached"` and `attempts = 0`, and leaves the
healer state untouched; the equality holds for every page, so neither the
Strategy Synthesizer nor the trial loop can influence the outcome. -/
theorem healLocator_cache_short_circuit (page : Page) (st : HealerState)
    (orig v : String) (h : mapGet orig st.locatorCache = some v) :
    healLocator page st orig =
      ({ success := true, originalLocator := orig, healedLocator := some v,
         strategy := some "cached", attempts := 0 }, st) := by
  unfold healLocator
  rw [h]

/-- C3 (witness): after a first successful healing of `a` on `pageA`, the
second call is served from the Cache. -/
theorem healLocator_cache_short_circuit_witness :
    healLocator pageA stA1 "a" =
      ({ success := true, originalLocator := "a", healedLocator := some "#real",
         strategy := some "cached", attempts := 0 }, stA1) :=
  healLocator_cache_short_circuit pageA stA1 "a" "#real" (by decide)

/-- C4: a `healLocator` call with no Cache entry in which no synthesized
strategy is visible returns `success = false` with `attempts` equal to the
number of synthesized strategies, and leaves the Cache unchanged. -/
theorem healLocator_exhaustion (page : Page) (st : HealerState) (orig : String)
    (hcache : mapGet orig st.locatorCache = none)
    (hv : ∀ s ∈ generateAlternativeStrategies page orig,
      strategyVisible page s = false) :
    (healLocator page st orig).1 =
      ⟨false, orig, none, none, (generateAlternativeStrategies page orig).length⟩ ∧
    (healLocator page st orig).2.locatorCache = st.locatorCache := by
  unfold healLocator
  rw [hcache,
    trialLoop_exhaust page orig (generateAlternativeStrategies page orig) st 0 hv]
  exact ⟨by simp, rfl⟩

/-- C4 (witness): on `pageB` the locator `b` synthesizes two strategies
(id and name), neither visible, so healing fails with `attempts = 2` and
the Cache stays empty. -/
theorem healLocator_exhaustion_witness :
    ((healLocator pageB initialState "b").1 =
        ⟨false, "b", none, none, (generateAlternativeStrategies pageB "b").length⟩ ∧
      (healLocator pageB initialState "b").2.locatorCache =
        initialState.locatorCache) ∧
    (generateAlternativeStrategies pageB "b").length = 2 :=
  ⟨healLocator_exhaustion pageB initialState "b" (by decide) (by decide), by decide⟩

/-- C9: assuming every Cache value is non-empty (true initially and
preserved by every call), any `HealingResult` returned by `healLocator`
with `success = true` carries a present, non-empty `healedLocator`, and
every value in the resulting Cache is again non-empty. -/
theorem healLocator_success_nonempty (page : Page) (st : HealerState) (orig : String)
    (hc : ∀ p ∈ st.locatorCache, p.2 ≠ "") :
    ((healLocator page st orig).1.success = true →
      ∃ h, (healLocator page st orig).1.healedLocator = some h ∧ h ≠ "") ∧
    (∀ p ∈ (healLocator page st orig).2.locatorCache, p.2 ≠ "") :=
  healLocator_wf page st orig hc

/-- C9 (witness): the invariant theorem applied to a successful healing
call from the empty initial state. -/
theorem healLocator_success_nonempty_witness :
    ((healLocator pageA initialState "a").1.success = true →
      ∃ h, (healLocator pageA initialState "a").1.healedLocator = some h ∧ h ≠ "") ∧
    (∀ p ∈ (healLocator pageA initialState "a").2.locatorCache, p.2 ≠ "") :=
  healLocator_success_nonempty pageA initialState "a" (by decide)

/-- C2: when the element found by the original locator is visible with
attributes `a`, strategy synthesis returns exactly the spec's fixed table
applied to `a` (one strategy per present-and-non-empty attribute, with the
table's value construction and priority), sorted ascending by priority. -/
theorem generateAlternativeStrategies_matches_table (page : Page) (orig : String)
    (a : ElementAttrs) (h : page.attrsOf orig = some a) :
    generateAlternativeStrategies page orig = specStrategies a ∧
    (generateAlternativeStrategies page orig).Pairwise
      (fun x y => x.priority ≤ y.priority) := by
  have hgen : generateAlternativeStrategies page orig = buildStrategies a := by
    unfold generateAlternativeStrategies
    rw [h]
    exact sortByPriority_eq_of_pairwise _ (buildStrategies_pairwise a)
  rw [hgen, specStrategies_eq]
  exact ⟨rfl, buildStrategies_pairwise a⟩

/-- C2 (witness): for an element exposing test-id, id and class, synthesis
yields exactly testId, `#id`-css and `.class`-css, in that order
(priorities 1, 2, 8). -/
theorem generateAlternativeStrategies_matches_table_witness :
    (generateAlternativeStrategies pageC "c" = specStrategies attrsTic ∧
      (generateAlternativeStrategies pageC "c").Pairwise
        (fun x y => x.priority ≤ y.priority)) ∧
    generateAlternativeStrategies pageC "c" =
      [⟨StrategyType.testId, "tid", 1⟩, ⟨StrategyType.css, "#theid", 2⟩,
       ⟨StrategyType.css, ".c1.c2", 8⟩] :=
  ⟨generateAlternativeStrategies_matches_table pageC "c" attrsTic (by decide),
   by decide⟩

/-- C5: with healing enabled (and the Cache well-formed), `findElement`
raises the distinct could-not-heal error exactly when both the direct
visibility wait and the healing attempt fail; the original resolution
error is never surfaced; and when healing succeeds the call returns the
handle resolved from the healed locator value. -/
theorem findElement_error_contract (page : Page) (st : HealerState)
    (locator : String) (opts : FindOptions)
    (hEn : effEnableHealing opts = true)
    (hc : ∀ p ∈ st.locatorCache, p.2 ≠ "") :
    ((findElement page st locator opts).1 =
        Except.error (FindError.couldNotHeal locator) ↔
      (page.waitForVisible locator (effTimeout opts) = false ∧
        (healLocator page st locator).1.success = false)) ∧
    (findElement page st locator opts).1 ≠
      Except.error (FindError.resolutionError locator) ∧
    (page.waitForVisible locator (effTimeout opts) = false →
      (healLocator page st locator).1.success = true →
      ∃ h, (healLocator page st locator).1.healedLocator = some h ∧
        (findElement page st locator opts).1 = Except.ok (Locator.loc h)) := by
  have hwf := healLocator_wf page st locator hc
  unfold findElement
  cases hD : page.waitForVisible locator (effTimeout opts) with
  | true => simp
  | false =>
    simp only [Bool.false_eq_true, if_false, hEn, Bool.not_true]
    cases hH : (healLocator page st locator).1.healedLocator with
    | none =>
      have hsucc : (healLocator page st locator).1.success = false := by
        cases hs : (healLocator page st locator).1.success
        · rfl
        · rcases hwf.1 hs with ⟨h, hh, _⟩
          rw [hH] at hh
          cases hh
      simp [hsucc]
    | some h =>
      cases hs : (healLocator page st locator).1.success with
      | false => simp [hs]
      | true =>
        rcases hwf.1 hs with ⟨h2, hh2, hne⟩
        rw [hH] at hh2
        have he2 : h2 = h := (Option.some.inj hh2).symm
        subst he2
        simp [hs, hne]

/-- C5 (witness): the contract instantiated on `pageA` (healing succeeds,
so the could-not-heal error is not raised), plus a concrete run on `pageB`
where healing fails and the could-not-heal error is raised. -/
theorem findElement_error_contract_witness :
    (((findElement pageA initialState "a" optsDefault).1 =
        Except.error (FindError.couldNotHeal "a") ↔
      (pageA.waitForVisible "a" (effTimeout optsDefault) = false ∧
        (healLocator pageA initialState "a").1.success = false)) ∧
    (findElement pageA initialState "a" optsDefault).1 ≠
      Except.error (FindError.resolutionError "a") ∧
    (pageA.waitForVisible "a" (effTimeout optsDefault) = false →
      (healLocator pageA initialState "a").1.success = true →
      ∃ h, (healLocator pageA initialState "a").1.healedLocator = some h ∧
        (findElement pageA initialState "a" optsDefault).1 =
          Except.ok (Locator.loc h))) ∧
    (findElement pageB initialState "b" optsDefault).1 =
      Except.error (FindError.couldNotHeal "b") :=
  ⟨findElement_error_contract pageA initialState "a" optsDefault (by decide)
    (by decide), by rfl⟩

/-- C6: with healing disabled, a `findElement` call whose direct
resolution fails raises exactly the original resolution failure and leaves
the healer state (Cache and Ledger) unmodified; the equality holds for
every page and state, so healing and synthesis cannot be invoked. -/
theorem findElement_disabled_healing (page : Page) (st : HealerState)
    (locator : String) (opts : FindOptions)
    (hEn : effEnableHealing opts = false)
    (hD : page.waitForVisible locator (effTimeout opts) = false) :
    findElement page st locator opts =
      (Except.error (FindError.resolutionError locator), st) := by
  unfold findElement
  rw [hD, hEn]
  simp

/-- C6 (witness): the disabled-healing contract on `pageA`, whose hidden
element would otherwise be healable. -/
theorem findElement_disabled_healing_witness :
    findElement pageA initialState "a" optsNoHeal =
      (Except.error (FindError.resolutionError "a"), initialState) :=
  findElement_disabled_healing pageA initialState "a" optsNoHeal (by decide)
    (by decide)

/-- C7: for every Ledger state with `N` entries of which `S` are
successful, `getHealingStats` reports `totalAttempts = N`,
`successful = S`, `failed = N - S`, `cachedLocators` = Cache size, and
`successRate = round(100 * S / N, 2)`; when `N = 0` the rate is `0`. -/
theorem getHealingStats_correct (st : HealerState) :
    getHealingStats st =
      { totalAttempts := st.healingHistory.length,
        successful := (st.healingHistory.filter (fun p => p.2.success)).length,
        failed := st.healingHistory.length -
          (st.healingHistory.filter (fun p => p.2.success)).length,
        successRate :=
          roundTo2 (100 *
            ((st.healingHistory.filter (fun p => p.2.success)).length : ℚ) /
            (st.healingHistory.length : ℚ)),
        cachedLocators := st.locatorCache.length } ∧
    (st.healingHistory.length = 0 → (getHealingStats st).successRate = 0) := by
  constructor
  · simp only [getHealingStats]
    have hrate : (if st.healingHistory.length > 0 then
          ((st.healingHistory.filter (fun p => p.2.success)).length : ℚ) /
            (st.healingHistory.length : ℚ) * 100 else 0) =
        100 * ((st.healingHistory.filter (fun p => p.2.success)).length : ℚ) /
          (st.healingHistory.length : ℚ) := by
      by_cases hpos : st.healingHistory.length > 0
      · rw [if_pos hpos]
        ring
      · rw [if_neg hpos]
        have h0 : st.healingHistory.length = 0 := by omega
        rw [h0]
        norm_num
    rw [hrate]
  · intro h0
    simp only [getHealingStats, h0]
    norm_num [roundTo2_zero]

theorem jsTruthyB_true (o : Option String) (h : jsTruthyB o = true) :
    ∃ v, o = some v ∧ v ≠ "" := by
  cases o with
  | none => simp [jsTruthyB, jsTruthy] at h
  | some v =>
    by_cases hv : v = ""
    · simp [jsTruthyB, jsTruthy, hv] at h
    · exact ⟨v, rfl, hv⟩

theorem export_go (hist : List (String × HealingResult))
    (hwf : ∀ p ∈ hist, p.2.success = true →
      jsTruthyB p.2.healedLocator = true ∧ jsTruthyB p.2.strategy = true) :
    (hist.filterMap (fun p =>
      match p.2.healedLocator, p.2.strategy with
      | some h, some s =>
        if p.2.success && decide (h ≠ "") && decide (s ≠ "") then
          some ⟨p.1, h, s⟩
        else none
      | _, _ => none) : List ExportEntry) =
      (hist.filter (fun p => p.2.success)).map
        (fun p => ⟨p.1, p.2.healedLocator.getD "", p.2.strategy.getD ""⟩) := by
  induction hist with
  | nil => rfl
  | cons p t ih =>
    have iht := ih (fun q hq => hwf q (List.mem_cons_of_mem p hq))
    cases hs : p.2.success with
    | false =>
      have hfp : (match p.2.healedLocator, p.2.strategy with
          | some h, some s =>
            if p.2.success && decide (h ≠ "") && decide (s ≠ "") then
              some (⟨p.1, h, s⟩ : ExportEntry)
            else none
          | _, _ => none) = none := by
        cases p.2.healedLocator <;> cases p.2.strategy <;> simp [hs]
      simp only [List.filterMap_cons, List.filter_cons]
      rw [hfp, if_neg (by simp [hs]), iht]
    | true =>
      rcases hwf p (List.mem_cons_self p t) hs with ⟨hh, hstr⟩
      rcases jsTruthyB_true _ hh with ⟨h, hhl, hne⟩
      rcases jsTruthyB_true _ hstr with ⟨s, hsl, hsne⟩
      have hfp : (match p.2.healedLocator, p.2.strategy with
          | some h, some s =>
            if p.2.success && decide (h ≠ "") && decide (s ≠ "") then
              some (⟨p.1, h, s⟩ : ExportEntry)
            else none
          | _, _ => none) = some ⟨p.1, h, s⟩ := by
        rw [hhl, hsl]
        simp [hs, hne, hsne]
      simp only [List.filterMap_cons, List.filter_cons]
      rw [hfp, if_pos (by simp [hs]), List.map_cons, iht]
      simp [hhl, hsl]

/-- C8: assuming every successful Ledger entry carries truthy
`healedLocator` and `strategy` fields (which the engine guarantees, see the
C9 invariant), `exportHealedLocators` returns exactly one triple per
successful Ledger entry — carrying that entry's recorded healed locator and
strategy — none for failed entries, in Ledger insertion order. -/
theorem exportHealedLocators_complete (st : HealerState)
    (hwf : ∀ p ∈ st.healingHistory, p.2.success = true →
      jsTruthyB p.2.healedLocator = true ∧ jsTruthyB p.2.strategy = true) :
    exportHealedLocators st =
      (st.healingHistory.filter (fun p => p.2.success)).map
        (fun p => ⟨p.1, p.2.healedLocator.getD "", p.2.strategy.getD ""⟩) := by
  unfold exportHealedLocators
  exact export_go st.healingHistory hwf

/-- C8 (witness): on a Ledger with successes for `p` and `r` and a failure
for `q`, the export is exactly the two successful triples in insertion
order. -/
theorem exportHealedLocators_complete_witness :
    (exportHealedLocators stStats =
      (stStats.healingHistory.filter (fun p => p.2.success)).map
        (fun p => ⟨p.1, p.2.healedLocator.getD "", p.2.strategy.getD ""⟩)) ∧
    exportHealedLocators stStats =
      [⟨"p", "#p", "css"⟩, ⟨"r", "tid", "testId"⟩] :=
  ⟨exportHealedLocators_complete stStats (by decide), by decide⟩

/-- C10: whenever `findElement` succeeds via healing, the returned handle
is built by the generic selector resolver (`page.locator`) applied to the
raw healed value — the `Locator.loc` constructor — regardless of which
strategy kind won during the trial loop (or whether the value came from the
Cache). -/
theorem findElement_generic_reresolve (page : Page) (st : HealerState)
    (locator : String) (opts : FindOptions) (h : String)
    (hEn : effEnableHealing opts = true)
    (hD : page.waitForVisible locator (effTimeout opts) = false)
    (hS : (healLocator page st locator).1.success = true)
    (hH : (healLocator page st locator).1.healedLocator = some h)
    (hne : h ≠ "") :
    findElement page st locator opts =
      (Except.ok (Locator.loc h), (healLocator page st locator).2) := by
  unfold findElement
  rw [hD, hEn]
  simp only [Bool.not_true, Bool.false_eq_true, if_false]
  rw [hH]
  simp [hS, hne]

/-- C10 (witness): on `pageT` the winning strategy kind is `testId`
(validated via `getByTestId` during the trial), yet `findElement` returns
the generic `page.locator("submit")` handle — even though that plain
selector is not visible on the page. -/
theorem findElement_generic_reresolve_witness :
    findElement pageT initialState "old" optsDefault =
      (Except.ok (Locator.loc "submit"), (healLocator pageT initialState "old").2) ∧
    (healLocator pageT initialState "old").1.strategy = some "testId" ∧
    pageT.isVisible (Locator.loc "submit") 2000 = false :=
  ⟨findElement_generic_reresolve pageT initialState "old" optsDefault "submit"
      (by decide) (by decide) (by decide) (by decide) (by decide),
   by decide, by decide⟩

end Healer
